import Mathlib

/-!
Verification development for the csv2pdf converter (src/main.go).

The program is modelled at the level of CSV records: the Go code reads
records through encoding/csv (an external library), so the input stream
is embedded as a list of records, each record a list of field strings.
Go ints that hold line counters are embedded as Nat (they start at 1 and
only ever grow, and the only subtraction is n - 1 with n at least 1).
-/

namespace Csv2Pdf

/-- Embedding of the Go struct partDesc (src/main.go lines 235-239):
one contiguous run of CSV rows sharing a column count. -/
structure partDesc where
  firstLine : Nat
  lastLine : Nat
  head : List String
  widths : List Nat
  deriving DecidableEq, Repr

/-- Embedding of the width-accumulation loop body of parseCsv
(src/main.go lines 278-282): for each field of the record, bump the
stored width to the field length when the field is longer.  At its call
site the record has exactly as many fields as there are widths; the
extra cases mirror Go slice iteration over the shorter of the two. -/
def updateWidths : List Nat → List String → List Nat
  | w :: ws, v :: vs => (if v.length > w then v.length else w) :: updateWidths ws vs
  | ws, [] => ws
  | [], _ :: _ => []

/-- Embedding of the main loop of parseCsv (src/main.go lines 260-285).
Arguments: the records still unread, the current part value, the line
counter n (already counting the rows read so far), and the parts
accumulated by append.  Mirrors the Go code exactly, including the facts
that at a column-count change the current part value is appended BEFORE
the assignment part.lastLine = n-1 and that the new part keeps
lastLine = n-1 until it is itself closed, and that at EOF the final part
gets lastLine = n - 1. -/
def parseCsvGo : List (List String) → partDesc → Nat → List partDesc → List partDesc
  | [], part, n, parts => parts ++ [{ part with lastLine := n - 1 }]
  | record :: rest, part, n, parts =>
      if record.length ≠ part.head.length then
        parseCsvGo rest
          { firstLine := n + 1, lastLine := n, head := record,
            widths := List.replicate record.length 0 }
          (n + 1) (parts ++ [part])
      else
        parseCsvGo rest { part with widths := updateWidths part.widths record }
          (n + 1) parts

/-- Embedding of parseCsv (src/main.go lines 241-288).  The first record
is the initial header (a read error on an empty stream is the none
case); the zero value of the Go partDesc gives firstLine = 0 and
lastLine = 0 for the initial part; n starts at 1 after the header. -/
def parseCsv (records : List (List String)) : Option (List partDesc) :=
  match records with
  | [] => none
  | head :: rest =>
      some (parseCsvGo rest
        { firstLine := 0, lastLine := 0, head := head,
          widths := List.replicate head.length 0 }
        1 [])

/-- Instrumented copy of the parseCsv main loop that also carries, for
the current part and for every emitted part, the list of its body
records (the records whose field count matched that part's header).
The partDesc bookkeeping is identical to parseCsvGo, line for line. -/
def parseCsvGoB : List (List String) → partDesc → List (List String) → Nat →
    List (partDesc × List (List String)) → List (partDesc × List (List String))
  | [], part, body, n, acc => acc ++ [({ part with lastLine := n - 1 }, body)]
  | record :: rest, part, body, n, acc =>
      if record.length ≠ part.head.length then
        parseCsvGoB rest
          { firstLine := n + 1, lastLine := n, head := record,
            widths := List.replicate record.length 0 }
          [] (n + 1) (acc ++ [(part, body)])
      else
        parseCsvGoB rest { part with widths := updateWidths part.widths record }
          (body ++ [record]) (n + 1) acc

/-- Instrumented parseCsv: the same segmentation, with each emitted
part paired with its body records. -/
def parseCsvSeg (records : List (List String)) :
    Option (List (partDesc × List (List String))) :=
  match records with
  | [] => none
  | head :: rest =>
      some (parseCsvGoB rest
        { firstLine := 0, lastLine := 0, head := head,
          widths := List.replicate head.length 0 }
        [] 1 [])

/-- The widths list dominates a record pointwise: every field is no
longer than the stored width of its column (out-of-range positions read
as the empty string against width 0). -/
def widthsCover (widths : List Nat) (r : List String) : Prop :=
  ∀ i, (r.getD i "").length ≤ widths.getD i 0

/-- The invariant tying an emitted part to its body records: the widths
list is sized to the header, and every body record has the header's
field count and is dominated by the widths list. -/
def partInv (p : partDesc) (body : List (List String)) : Prop :=
  p.widths.length = p.head.length ∧
    ∀ r ∈ body, r.length = p.head.length ∧ widthsCover p.widths r

theorem updateWidths_length (ws : List Nat) (vs : List String) :
    (updateWidths ws vs).length = ws.length := by
  induction ws generalizing vs with
  | nil => cases vs <;> simp [updateWidths]
  | cons w ws ih => cases vs <;> simp [updateWidths, ih]

theorem updateWidths_ge (ws : List Nat) (vs : List String) (i : Nat) :
    ws.getD i 0 ≤ (updateWidths ws vs).getD i 0 := by
  induction ws generalizing vs i with
  | nil => cases vs <;> simp [updateWidths]
  | cons w ws ih =>
      cases vs with
      | nil => simp [updateWidths]
      | cons v vs =>
          cases i with
          | zero =>
              simp only [updateWidths, List.getD_cons_zero]
              split <;> omega
          | succ i => simpa [updateWidths] using ih vs i

theorem updateWidths_cover (ws : List Nat) (vs : List String)
    (h : vs.length ≤ ws.length) : widthsCover (updateWidths ws vs) vs := by
  intro i
  induction ws generalizing vs i with
  | nil =>
      cases vs with
      | nil => simp [updateWidths]
      | cons v vs => simp at h
  | cons w ws ih =>
      cases vs with
      | nil => simp [updateWidths]
      | cons v vs =>
          cases i with
          | zero =>
              simp only [updateWidths, List.getD_cons_zero]
              split <;> omega
          | succ i =>
              simp only [updateWidths, List.getD_cons_succ]
              exact ih vs (by simpa using h) i

theorem widthsCover_update (ws : List Nat) (vs r : List String)
    (h : widthsCover ws r) : widthsCover (updateWidths ws vs) r :=
  fun i => le_trans (h i) (updateWidths_ge ws vs i)

theorem widthsCover_replicate (k : Nat) : widthsCover (List.replicate k 0) [] := by
  intro i
  simp

/-- Every pair emitted by the instrumented loop satisfies the part
invariant, provided the running part and the accumulator do. -/
theorem parseCsvGoB_inv (rest : List (List String)) :
    ∀ part body n acc, partInv part body →
      (∀ pb ∈ acc, partInv pb.1 pb.2) →
      ∀ pb ∈ parseCsvGoB rest part body n acc, partInv pb.1 pb.2 := by
  induction rest with
  | nil =>
      intro part body n acc hpart hacc pb hpb
      simp only [parseCsvGoB, List.mem_append, List.mem_singleton] at hpb
      rcases hpb with hpb | hpb
      · exact hacc pb hpb
      · subst hpb; exact hpart
  | cons record rest ih =>
      intro part body n acc hpart hacc pb hpb
      simp only [parseCsvGoB] at hpb
      by_cases hlen : record.length ≠ part.head.length
      · rw [if_pos hlen] at hpb
        refine ih _ _ _ _ ?_ ?_ pb hpb
        · exact ⟨by simp, by simp⟩
        · intro qb hqb
          rcases List.mem_append.mp hqb with hqb | hqb
          · exact hacc qb hqb
          · rcases List.mem_singleton.mp hqb with rfl
            exact hpart
      · rw [if_neg hlen] at hpb
        push_neg at hlen
        refine ih _ _ _ _ ?_ hacc pb hpb
        refine ⟨by simpa [updateWidths_length] using hpart.1, ?_⟩
        intro r hr
        rcases List.mem_append.mp hr with hr | hr
        · exact ⟨(hpart.2 r hr).1,
            widthsCover_update part.widths record r (hpart.2 r hr).2⟩
        · rcases List.mem_singleton.mp hr with rfl
          have h1 := hpart.1
          exact ⟨hlen, updateWidths_cover part.widths r (by omega)⟩

/-- Erasing the body instrumentation recovers parseCsvGo. -/
theorem parseCsvGoB_fst (rest : List (List String)) :
    ∀ part body n acc,
      (parseCsvGoB rest part body n acc).map Prod.fst =
        parseCsvGo rest part n (acc.map Prod.fst) := by
  induction rest with
  | nil => intro part body n acc; simp [parseCsvGoB, parseCsvGo]
  | cons record rest ih =>
      intro part body n acc
      simp only [parseCsvGoB, parseCsvGo]
      by_cases hlen : record.length ≠ part.head.length
      · rw [if_pos hlen, if_pos hlen, ih]; simp
      · rw [if_neg hlen, if_neg hlen, ih]

/-- Embedding of the per-column contribution to the orientation total in
the main loop (src/main.go lines 97-103): the header label length when
it exceeds the accumulated width, otherwise the accumulated width,
summed across columns.  The Go code indexes widths by the indices of
head; the two have the same length for every part parseCsv emits. -/
def totalWidth : List String → List Nat → Nat
  | h :: hs, w :: ws => (if h.length > w then h.length else w) + totalWidth hs ws
  | _, _ => 0

/-- Embedding of the orientation choice (src/main.go lines 104-107):
portrait unless the summed width exceeds 190. -/
def orientation (part : partDesc) : String :=
  if totalWidth part.head part.widths > 190 then "L" else "P"

/-- Embedding of the inner replay loop of main (src/main.go lines
114-123): for n++; n < lastLine; n++ with one record read per
iteration, breaking on EOF.  The reader is modelled by the count of
records it can still deliver.  Returns the counter, the records left,
and the number of body records read. -/
def bodyLoop (lastLine : Nat) : Nat → Nat → Nat → Nat × Nat × Nat
  | n, 0, reads => (n, 0, reads)
  | n, remaining + 1, reads =>
      if n < lastLine then bodyLoop lastLine (n + 1) remaining (reads + 1)
      else (n, remaining + 1, reads)

/-- Embedding of the per-part rendering loop of main (src/main.go lines
93-127).  Per part: one AddPageFormat call, one header-row read (a
failure there is fatal, the none case), the body replay loop driven by
the shared counter n, then one pdf.Output call.  Returns the body reads
per part, the number of pages added, and the number of Output calls. -/
def renderLoop : List partDesc → Nat → Nat → Option (List Nat × Nat × Nat)
  | [], _, _ => some ([], 0, 0)
  | part :: parts, n, remaining =>
      match remaining with
      | 0 => none
      | remaining + 1 =>
          match bodyLoop part.lastLine (n + 1) remaining 0 with
          | (n1, rem1, reads) =>
              match renderLoop parts n1 rem1 with
              | none => none
              | some (l, pages, outputs) => some (reads :: l, pages + 1, outputs + 1)

/-- Embedding of strings.ToLower as used on charset names: each
character lowercased (written over the character list so that it
evaluates by kernel reduction). -/
def toLowerStr (s : String) : String :=
  String.mk (s.data.map Char.toLower)

/-- Embedding of the charset-to-mapping-file computation of main
(src/main.go lines 46-50): utf-8 is rewritten to iso-8859-2, then the
lowercased name plus the .map suffix is the file loaded from the font
directory. -/
def mapFileBase (charset : String) : String :=
  let cs := if charset = "utf-8" then "iso-8859-2" else charset
  toLowerStr cs ++ ".map"

/-- Outcome of extracting one archive entry in prepareFontDir
(src/main.go lines 169-192): the open of the zip entry can fail, the
create of the destination can fail, the byte copy can fail, or the
final explicit close of the destination can fail; otherwise the entry
extracts cleanly. -/
inductive EntryOutcome where
  | openFail
  | createFail
  | copyFail (msg : String)
  | closeFail (msg : String)
  | ok
  deriving DecidableEq, Repr

/-- Result of one extraction worker (src/main.go lines 169-192): open
and create failures are logged and the worker returns nil (the entry is
skipped); a copy failure returns the wrapped error; the final
dst.Close() result is returned as-is. -/
def entryResult : EntryOutcome → Option String
  | .openFail => none
  | .createFail => none
  | .copyFail m => some ("copy: " ++ m)
  | .closeFail m => some m
  | .ok => none

/-- Embedding of errgroup.Group.Wait over the extraction workers
(src/main.go lines 166-194): the recorded error is the first non-nil
worker result; the workers are sequentialised in entry order, which
fixes the schedule the errgroup leaves open. -/
def firstError : List EntryOutcome → Option String
  | [] => none
  | e :: es =>
      match entryResult e with
      | some m => some m
      | none => firstError es

/-- Embedding of a Go func() error value that may be nil: calling a nil
function panics, so the nil case is kept distinct from a real cleanup
action. -/
inductive Cleanup where
  | nilFunc
  | removeAll (dir : String)
  deriving DecidableEq, Repr

/-- Result of invoking a Cleanup value the way main defers it
(src/main.go line 42): invoking the nil function value panics (none);
invoking the RemoveAll closure succeeds in this model. -/
def callCleanup : Cleanup → Option Unit
  | .nilFunc => none
  | .removeAll _ => some ()

/-- The three named results of prepareFontDir (src/main.go line 130). -/
structure FontDirResult where
  fontDir : String
  closeDir : Cleanup
  err : Option String
  deriving DecidableEq, Repr

/-- Name of the temporary directory os.MkdirTemp yields in the model. -/
def tempFontDir : String := "/tmp/csv2pdf-font-0"

/-- Embedding of prepareFontDir (src/main.go lines 130-196).  A
non-empty path is returned at once, with the zero values of the other
named results: a nil cleanup function and a nil error.  Otherwise the
bundled archive is opened (a statik or zip failure is the none bundle,
returned before any temp dir exists), a temp dir is created with a
RemoveAll cleanup, the entries are extracted, and the first worker
error is returned; the deferred block clears the cleanup back to nil
whenever the returned error is non-nil. -/
def prepareFontDir (path : String) (bundle : Option (List EntryOutcome)) :
    FontDirResult :=
  if path ≠ "" then { fontDir := path, closeDir := .nilFunc, err := none }
  else
    match bundle with
    | none => { fontDir := "", closeDir := .nilFunc, err := some "opening zip" }
    | some entries =>
        match firstError entries with
        | none =>
            { fontDir := tempFontDir, closeDir := .removeAll tempFontDir,
              err := none }
        | some m =>
            { fontDir := tempFontDir, closeDir := .nilFunc, err := some m }

/-- Recognises the one outcome the worker turns into a copy error. -/
def isCopyFail : EntryOutcome → Bool
  | .copyFail _ => true
  | _ => false

theorem parseCsvGo_widths_sized (rest : List (List String)) :
    ∀ part n acc, part.widths.length = part.head.length →
      (∀ p ∈ acc, p.widths.length = p.head.length) →
      ∀ p ∈ parseCsvGo rest part n acc, p.widths.length = p.head.length := by
  induction rest with
  | nil =>
      intro part n acc hpart hacc p hp
      simp only [parseCsvGo, List.mem_append, List.mem_singleton] at hp
      rcases hp with hp | hp
      · exact hacc p hp
      · subst hp; exact hpart
  | cons record rest ih =>
      intro part n acc hpart hacc p hp
      simp only [parseCsvGo] at hp
      by_cases hlen : record.length ≠ part.head.length
      · rw [if_pos hlen] at hp
        refine ih _ _ _ (by simp) ?_ p hp
        intro q hq
        rcases List.mem_append.mp hq with hq | hq
        · exact hacc q hq
        · rcases List.mem_singleton.mp hq with rfl
          exact hpart
      · rw [if_neg hlen] at hp
        exact ih _ _ _ (by simpa [updateWidths_length] using hpart) hacc p hp

theorem firstError_eq_none (entries : List EntryOutcome) :
    firstError entries = none ↔ ∀ e ∈ entries, entryResult e = none := by
  induction entries with
  | nil => simp [firstError]
  | cons e es ih =>
      cases h : entryResult e with
      | none => simp [firstError, h, ih]
      | some m => simp [firstError, h]

theorem firstError_first (post : List EntryOutcome) (e : EntryOutcome)
    (m : String) (he : entryResult e = some m) :
    ∀ pre, (∀ x ∈ pre, entryResult x = none) →
      firstError (pre ++ e :: post) = some m := by
  intro pre
  induction pre with
  | nil => intro _; simp [firstError, he]
  | cons x xs ih =>
      intro hpre
      have hx : entryResult x = none := hpre x (by simp)
      simp only [List.cons_append, firstError, hx]
      exact ih fun y hy => hpre y (by simp [hy])

theorem prepareFontDir_err (entries : List EntryOutcome) :
    (prepareFontDir "" (some entries)).err = firstError entries := by
  unfold prepareFontDir
  rw [if_neg (by simp)]
  cases h : firstError entries <;> simp [h]

/-- C1: for a single-schema input, parseCsv does return exactly one
part, but its lastLine is the row count MINUS ONE, not the row count
including the header that the claim (spec section 8) requires: on the
two-row input below the single part carries lastLine = 1 while the
input has 2 rows.  The slip is the closing assignment lastLine = n - 1
at EOF, where n already equals the number of rows read; the replay loop
of main consumes lastLine - firstLine body rows only under the
conventions the spec states, so the code is the outlier. -/
theorem C1_single_schema_lastLine :
    parseCsv [["a"], ["b"]] =
        some [{ firstLine := 0, lastLine := 1, head := ["a"], widths := [1] }] ∧
      ((parseCsv [["a"], ["b"]]).getD []).map partDesc.lastLine ≠
        [[["a"], ["b"]].length] := by
  decide

/-- C2: on a single-schema input of three rows, parseCsv emits one part
with firstLine = 0 and lastLine = 2, and the replay pass then reads
only 1 body record for that part, not lastLine - firstLine = 2 as the
claim requires (the third row is never rendered).  One page is indeed
added per part; the reads clause is what fails, because the part
bounds coming out of parseCsv do not satisfy the conventions the
replay counter relies on. -/
theorem C2_replay_read_count :
    parseCsv [["a"], ["b"], ["c"]] =
        some [{ firstLine := 0, lastLine := 2, head := ["a"], widths := [1] }] ∧
      renderLoop [{ firstLine := 0, lastLine := 2, head := ["a"], widths := [1] }]
          0 3 = some ([1], 1, 1) ∧
      ([1] : List Nat) ≠ [2 - 0] := by
  decide

/-- C3: parseCsv violates the ordering invariants.  On the three-schema
input below the emitted parts are (firstLine, lastLine) = (0, 0),
(2, 1), (3, 2): the second and third parts have firstLine greater than
lastLine, and no part starts at the previous part's lastLine plus one.
The cause is that each part is appended BEFORE the closing assignment
part.lastLine = n - 1, so every emitted part except the last keeps a
stale lastLine, and the final part's lastLine is short by one. -/
theorem C3_parts_not_contiguous :
    parseCsv [["a"], ["b", "c"], ["d", "e", "f"]] =
        some [{ firstLine := 0, lastLine := 0, head := ["a"], widths := [0] },
              { firstLine := 2, lastLine := 1, head := ["b", "c"],
                widths := [0, 0] },
              { firstLine := 3, lastLine := 2, head := ["d", "e", "f"],
                widths := [0, 0, 0] }] ∧
      ((parseCsv [["a"], ["b", "c"], ["d", "e", "f"]]).getD []).map
          (fun p => decide (p.firstLine ≤ p.lastLine)) =
        [true, false, false] := by
  decide

/-- C4: the pdf.Output call sits INSIDE the per-part loop of main
(src/main.go line 124), so a successfully processed two-part input
flushes the document to standard output twice, once per part, not
exactly once after all parts as the claim requires. -/
theorem C4_output_once_per_part :
    parseCsv [["a"], ["b", "c"]] =
        some [{ firstLine := 0, lastLine := 0, head := ["a"], widths := [0] },
              { firstLine := 2, lastLine := 1, head := ["b", "c"],
                widths := [0, 0] }] ∧
      renderLoop
          [{ firstLine := 0, lastLine := 0, head := ["a"], widths := [0] },
           { firstLine := 2, lastLine := 1, head := ["b", "c"],
             widths := [0, 0] }] 0 2 = some ([0, 0], 2, 2) ∧
      (2 : Nat) ≠ 1 := by
  decide

/-- C5: for a non-empty font-directory path, prepareFontDir does return
the path unmodified, but the cleanup action it returns is the zero
value of the named func() error result, a nil function, not a safe
no-op: invoking it, as the caller defers unconditionally at
src/main.go line 42, panics on the successful exit path. -/
theorem C5_nil_cleanup_on_given_path :
    prepareFontDir "font" none =
        { fontDir := "font", closeDir := Cleanup.nilFunc, err := none } ∧
      callCleanup Cleanup.nilFunc = none := by
  decide

/-- C6: every part parseCsv emits has a widths array exactly as long as
its header, because head and widths are only ever (re)assigned
together and the width update preserves length. -/
theorem C6_head_widths_same_length (records : List (List String))
    (parts : List partDesc) (h : parseCsv records = some parts) :
    ∀ p ∈ parts, p.head.length = p.widths.length := by
  cases records with
  | nil => simp [parseCsv] at h
  | cons head rest =>
      simp only [parseCsv, Option.some.injEq] at h
      subst h
      intro p hp
      exact (parseCsvGo_widths_sized rest _ 1 [] (by simp) (by simp) p hp).symm

theorem C6_witness :
    ({ firstLine := 0, lastLine := 1, head := ["a"],
        widths := [1] } : partDesc).head.length =
      ({ firstLine := 0, lastLine := 1, head := ["a"],
          widths := [1] } : partDesc).widths.length :=
  C6_head_widths_same_length [["a"], ["b"]]
    [{ firstLine := 0, lastLine := 1, head := ["a"], widths := [1] }]
    (by decide)
    { firstLine := 0, lastLine := 1, head := ["a"], widths := [1] }
    (by decide)

/-- C7: width accumulation is a monotonic maximum.  For every part the
instrumented segmentation emits, every body record of that part (the
records whose field count matched that part's header) has every field
no longer than the stored width of its column; erasing the
instrumentation recovers parseCsv, so the bound speaks about the parts
parseCsv returns. -/
theorem C7_widths_dominate_body (records : List (List String))
    (out : List (partDesc × List (List String)))
    (h : parseCsvSeg records = some out) :
    parseCsv records = some (out.map Prod.fst) ∧
      ∀ p body, (p, body) ∈ out → ∀ r ∈ body,
        r.length = p.head.length ∧
          ∀ i, (r.getD i "").length ≤ p.widths.getD i 0 := by
  cases records with
  | nil => simp [parseCsvSeg] at h
  | cons head rest =>
      simp only [parseCsvSeg, Option.some.injEq] at h
      subst h
      constructor
      · simp [parseCsv, parseCsvGoB_fst]
      · intro p body hmem r hr
        have hinv := parseCsvGoB_inv rest _ [] 1 []
          ⟨by simp, by simp⟩ (by simp) (p, body) hmem
        exact ⟨(hinv.2 r hr).1, (hinv.2 r hr).2⟩

theorem C7_witness :
    parseCsv [["a"], ["bb"]] =
        some [{ firstLine := 0, lastLine := 1, head := ["a"], widths := [2] }] ∧
      (List.getD ["bb"] 0 "").length ≤ List.getD [2] 0 0 :=
  have h := C7_widths_dominate_body [["a"], ["bb"]]
    [({ firstLine := 0, lastLine := 1, head := ["a"], widths := [2] }, [["bb"]])]
    (by decide)
  ⟨h.1, (h.2 { firstLine := 0, lastLine := 1, head := ["a"], widths := [2] }
    [["bb"]] (by decide) ["bb"] (by decide)).2 0⟩

/-- C8: the page added for a part is portrait exactly when the summed
per-column width (header length floored against the accumulated body
width, as main computes before AddPageFormat) is at most 190, and
landscape exactly when that sum exceeds 190. -/
theorem C8_orientation_threshold (p : partDesc) :
    (orientation p = "P" ↔ totalWidth p.head p.widths ≤ 190) ∧
      (orientation p = "L" ↔ 190 < totalWidth p.head p.widths) := by
  by_cases h : 190 < totalWidth p.head p.widths
  · unfold orientation
    rw [if_pos h]
    exact ⟨⟨fun hP => absurd hP (by decide), fun hle => absurd h (by omega)⟩,
      ⟨fun _ => h, fun _ => rfl⟩⟩
  · unfold orientation
    rw [if_neg h]
    push_neg at h
    exact ⟨⟨fun _ => h, fun _ => rfl⟩,
      ⟨fun hL => absurd hL (by decide), fun hlt => absurd hlt (by omega)⟩⟩

/-- C9 counterexample: an entry whose byte copy succeeds but whose
destination close fails is not a copy failure, yet prepareFontDir
returns its error, contradicting the clause that no error is returned
when no copy fails. -/
theorem C9_close_error_counterexample :
    ([EntryOutcome.closeFail "boom"].any isCopyFail) = false ∧
      (prepareFontDir "" (some [EntryOutcome.closeFail "boom"])).err =
        some "boom" := by
  decide

/-- C9 amended: during bundled-font extraction, open and create
failures are skipped without failing the batch; the first entry (in
worker order) whose copy fails, or whose destination close after a
successful copy fails, has its error returned by prepareFontDir; when
every entry opens, creates, copies and closes cleanly (or is skipped),
no error is returned. -/
theorem C9_extraction_error_policy (entries : List EntryOutcome) :
    ((∀ e ∈ entries, e = EntryOutcome.openFail ∨ e = EntryOutcome.createFail ∨
        e = EntryOutcome.ok) →
      (prepareFontDir "" (some entries)).err = none) ∧
      ((prepareFontDir "" (some entries)).err = none ↔
        ∀ e ∈ entries, entryResult e = none) ∧
      (∀ pre e post m, entries = pre ++ e :: post →
        (∀ x ∈ pre, entryResult x = none) → entryResult e = some m →
        (prepareFontDir "" (some entries)).err = some m) := by
  refine ⟨?_, ?_, ?_⟩
  · intro hall
    rw [prepareFontDir_err, firstError_eq_none]
    intro e he
    rcases hall e he with rfl | rfl | rfl <;> rfl
  · rw [prepareFontDir_err]
    exact firstError_eq_none entries
  · intro pre e post m hsplit hpre he
    rw [prepareFontDir_err, hsplit]
    exact firstError_first post e m he pre hpre

theorem C9_policy_witness :
    (prepareFontDir ""
        (some [EntryOutcome.openFail, EntryOutcome.copyFail "X"])).err =
      some "copy: X" :=
  (C9_extraction_error_policy
      [EntryOutcome.openFail, EntryOutcome.copyFail "X"]).2.2
    [EntryOutcome.openFail] (EntryOutcome.copyFail "X") [] "copy: X"
    (by decide) (by decide) (by decide)

/-- C10: with the default charset utf-8, the translator mapping file is
iso-8859-2.map, not utf-8.map; any other charset value loads its own
lowercased name with the .map suffix. -/
theorem C10_charset_map_file :
    mapFileBase "utf-8" = "iso-8859-2.map" ∧
      mapFileBase "utf-8" ≠ "utf-8.map" ∧
      ∀ c, c ≠ "utf-8" → mapFileBase c = toLowerStr c ++ ".map" := by
  refine ⟨by decide, by decide, ?_⟩
  intro c hc
  simp [mapFileBase, hc]

theorem C10_witness :
    ("latin2" : String) ≠ "utf-8" ∧
      mapFileBase "latin2" = toLowerStr "latin2" ++ ".map" :=
  ⟨by decide, C10_charset_map_file.2.2 "latin2" (by decide)⟩

end Csv2Pdf
